import Mathlib

/-!
Verification of the timeline compositor and renderer of the story-to-video
authoring tool.  The definitions below are shallow embeddings of the
TypeScript source (the video step's player and export logic, the scene step's
batch generation, and the overlay geometry editor).  Times, durations and
percentages are modelled as rationals; JavaScript truthiness checks are made
explicit where they matter.
-/

/-! ## Data model (types.ts) -/

/-- Lifecycle status of a generated image (types.ts, ComicImage.status). -/
inductive ImageStatus where
  | idle
  | generating
  | error
  | done
  deriving DecidableEq, Repr

/-- A single visual asset of a scene (types.ts, ComicImage). -/
structure ComicImage where
  id : String
  url : String
  isSelected : Bool
  status : ImageStatus
  duration : ℚ
  deriving DecidableEq, Repr

/-- Overlay media kind (types.ts, SceneOverlay.type). -/
inductive OverlayType where
  | image
  | video
  deriving DecidableEq, Repr

/-- Positioned overlay configuration in percentage coordinates
(types.ts, SceneOverlay).  The File handle is modelled by its presence. -/
structure SceneOverlay where
  hasFile : Bool
  url : Option String
  type : OverlayType
  volume : ℚ
  x : ℚ
  y : ℚ
  width : ℚ
  height : ℚ
  deriving DecidableEq, Repr

/-- A scene (types.ts, Scene).  File handles are modelled by their presence;
nullable/optional numeric fields are Options. -/
structure Scene where
  id : String
  description : String
  images : List ComicImage
  backgroundMusicFile : Bool := false
  backgroundMusicUrl : Option String := none
  backgroundMusicVolume : Option ℚ := none
  backgroundMusicTrimStart : Option ℚ := none
  backgroundMusicTrimEnd : Option ℚ := none
  backgroundMusicDuration : Option ℚ := none
  overlay : Option SceneOverlay := none
  deriving DecidableEq, Repr

/-- Narration configuration held in the video step's component state
(videoConfig).  audioFile is modelled by its presence. -/
structure VideoConfig where
  hasAudioFile : Bool
  trimStart : ℚ
  trimEnd : Option ℚ
  audioVolume : ℚ := 1
  deriving DecidableEq, Repr

/-! ## Timeline builder (handleCreateVideo, part_001 lines 916-939) -/

/-- One flat image segment of the timeline (ImageTimelineEntry). -/
structure ImageTimelineEntry where
  url : String
  startTime : ℚ
  endTime : ℚ
  deriving DecidableEq, Repr

/-- Per-scene timing entry emitted by the builder (sceneTimings element). -/
structure SceneTiming where
  id : String
  startTime : ℚ
  duration : ℚ
  deriving DecidableEq, Repr

/-- The builder's full output. -/
structure Timeline where
  imageTimeline : List ImageTimelineEntry
  sceneTimings : List SceneTiming
  totalDuration : ℚ
  deriving DecidableEq, Repr

/-- The eligibility filter used throughout the export path:
`scene.images.filter(img => img.status === 'done' && img.isSelected)`. -/
def selectedDoneImages (scene : Scene) : List ComicImage :=
  scene.images.filter (fun img => img.status == ImageStatus.done && img.isSelected)

/-- Inner loop of the builder over one scene's selected images
(part_001 lines 925-934): emits one segment per image, advancing the
cumulative clock and the scene duration by `image.duration / playbackRate`.
Returns (segments, new cumulative time, accumulated scene duration). -/
def pushImages (images : List ComicImage) (rate cumulative sceneDuration : ℚ) :
    List ImageTimelineEntry × ℚ × ℚ :=
  match images with
  | [] => ([], cumulative, sceneDuration)
  | image :: rest =>
      let durationOnPlayback := image.duration / rate
      let tail := pushImages rest rate (cumulative + durationOnPlayback)
        (sceneDuration + durationOnPlayback)
      ({ url := image.url, startTime := cumulative,
         endTime := cumulative + durationOnPlayback } :: tail.1,
       tail.2.1, tail.2.2)

/-- Outer loop of the builder over scenes (part_001 lines 920-937): every
scene records its start time before its images are walked and contributes a
SceneTiming entry even when it has no eligible images. -/
def buildScenes (scenes : List Scene) (rate cumulative : ℚ) :
    List ImageTimelineEntry × List SceneTiming × ℚ :=
  match scenes with
  | [] => ([], [], cumulative)
  | scene :: rest =>
      let pushed := pushImages (selectedDoneImages scene) rate cumulative 0
      let tail := buildScenes rest rate pushed.2.1
      (pushed.1 ++ tail.1,
       { id := scene.id, startTime := cumulative, duration := pushed.2.2 } :: tail.2.1,
       tail.2.2)

/-- The timeline builder of handleCreateVideo (part_001 lines 916-939).
`rate = 1` gives the nominal timeline (the preview's useMemo builder,
part_001 lines 308-327, which divides by no rate). -/
def buildTimeline (scenes : List Scene) (rate : ℚ) : Timeline :=
  let built := buildScenes scenes rate 0
  { imageTimeline := built.1, sceneTimings := built.2.1, totalDuration := built.2.2 }

/-- Sum of a scene's eligible (done and selected) image durations. -/
def sceneEligibleSum (scene : Scene) : ℚ :=
  ((selectedDoneImages scene).map ComicImage.duration).sum

/-- Sum of a scene's eligible image durations each divided by the rate. -/
def sceneRateSum (scene : Scene) (rate : ℚ) : ℚ :=
  ((selectedDoneImages scene).map (fun i => i.duration / rate)).sum

/-- Spec-side description of the scene timings: scene i starts at the
cumulative eligible duration of the scenes before it and lasts the sum of its
own eligible image durations. -/
def expectedSceneTimings : List Scene → ℚ → List SceneTiming
  | [], _ => []
  | scene :: rest, t =>
      { id := scene.id, startTime := t, duration := sceneEligibleSum scene } ::
        expectedSceneTimings rest (t + sceneEligibleSum scene)

/-- Rate-aware version of expectedSceneTimings, used to relate the builder's
timings at an arbitrary rate. -/
def expectedTimingsAtRate : List Scene → ℚ → ℚ → List SceneTiming
  | [], _, _ => []
  | scene :: rest, rate, t =>
      { id := scene.id, startTime := t, duration := sceneRateSum scene rate } ::
        expectedTimingsAtRate rest rate (t + sceneRateSum scene rate)

/-- A list of segments chains from time a to time b: each segment starts
exactly where its predecessor ended, the first starts at a, and the final end
is b. -/
def Chained : List ImageTimelineEntry → ℚ → ℚ → Prop
  | [], a, b => a = b
  | e :: l, a, b => e.startTime = a ∧ Chained l e.endTime b

/-- Concrete sample data mirroring the spec's three-scene scenario:
scene A has two eligible images (2s and 1.5s), scene B has none,
scene C has one (4s). -/
def sampleImage1 : ComicImage :=
  { id := "img1", url := "u1", isSelected := true, status := ImageStatus.done, duration := 2 }

def sampleImage2 : ComicImage :=
  { id := "img2", url := "u2", isSelected := true, status := ImageStatus.done, duration := 3/2 }

def sampleImage3 : ComicImage :=
  { id := "img3", url := "u3", isSelected := true, status := ImageStatus.done, duration := 4 }

def sampleSceneA : Scene := { id := "sceneA", description := "first scene", images := [sampleImage1, sampleImage2] }

def sampleSceneB : Scene := { id := "sceneB", description := "empty scene", images := [] }

def sampleSceneC : Scene := { id := "sceneC", description := "last scene", images := [sampleImage3] }

def sampleScenes : List Scene := [sampleSceneA, sampleSceneB, sampleSceneC]

/-! ## Active-segment lookup (drawFrame, part_001 lines 1114-1115; preview
sampler, part_001 lines 498-505) -/

/-- The predicate of the active-segment search:
`elapsedTime >= img.startTime && elapsedTime < img.endTime`. -/
def segmentMatch (elapsedTime : ℚ) (img : ImageTimelineEntry) : Bool :=
  decide (img.startTime ≤ elapsedTime) && decide (elapsedTime < img.endTime)

/-- JavaScript Array.findIndex: index of the first match, -1 when none. -/
def jsFindIndex {α : Type} (p : α → Bool) : List α → Int
  | [] => -1
  | x :: xs =>
      if p x then 0
      else
        let r := jsFindIndex p xs
        if r = -1 then -1 else r + 1

/-- The active-segment lookup of drawFrame (part_001 lines 1114-1115): the
first segment whose half-open range contains elapsedTime; if none matches and
elapsedTime is still before totalDuration, clamp to the last index. -/
def currentSegmentIndex (imageTimeline : List ImageTimelineEntry)
    (elapsedTime totalDuration : ℚ) : Int :=
  let found := jsFindIndex (segmentMatch elapsedTime) imageTimeline
  if found = -1 ∧ elapsedTime < totalDuration then (imageTimeline.length : Int) - 1
  else found

/-! ## Narration source start duration (part_001 lines 1008-1009) -/

/-- The duration argument of the narration buffer source's start call:
`Math.min(trimDuration / playbackRate, totalDuration)` where trimDuration is
`(trimEnd ?? audioDuration) - trimStart` and totalDuration is the
rate-adjusted timeline total computed by handleCreateVideo. -/
def narrationStartDuration (scenes : List Scene) (cfg : VideoConfig)
    (audioDuration playbackRate : ℚ) : ℚ :=
  let totalDuration := (buildTimeline scenes playbackRate).totalDuration
  let trimDuration := (cfg.trimEnd.getD audioDuration) - cfg.trimStart
  min (trimDuration / playbackRate) totalDuration

/-- Concrete narration scenario from the spec: one scene whose single eligible
image lasts 6 nominal seconds. -/
def c3Image : ComicImage :=
  { id := "img6", url := "u6", isSelected := true, status := ImageStatus.done, duration := 6 }

def c3Scene : Scene := { id := "scene6", description := "six seconds", images := [c3Image] }

def c3Config : VideoConfig := { hasAudioFile := true, trimStart := 2, trimEnd := some 10 }

/-! ## Rate-adjustment transform (part_001 line 926) -/

/-- Each image's contribution is divided by the playback rate; this is the
transform `image.duration / playbackRate` expressed on the image itself. -/
def rateAdjustImage (rate : ℚ) (img : ComicImage) : ComicImage :=
  { img with duration := img.duration / rate }

/-- The rate-adjustment transform lifted to a whole scene list. -/
def rateAdjustScenes (rate : ℚ) (scenes : List Scene) : List Scene :=
  scenes.map (fun s => { s with images := s.images.map (rateAdjustImage rate) })

/-- Duration argument of the narration source start call in the VideoStep.tsx
variant (lines 492-493, the version App.tsx imports):
`Math.min(trimDuration, totalDuration)` — unlike part_001 lines 1008-1009,
the trim window is not divided by the playback rate, while totalDuration is
still the rate-adjusted timeline total of its builder (lines 408-426). -/
def narrationStartDurationVS (scenes : List Scene) (cfg : VideoConfig)
    (audioDuration playbackRate : ℚ) : ℚ :=
  let totalDuration := (buildTimeline scenes playbackRate).totalDuration
  let trimDuration := (cfg.trimEnd.getD audioDuration) - cfg.trimStart
  min trimDuration totalDuration

/-! ## Export precondition, effect prefix and abort behaviour
(handleCreateVideo, part_001 lines 732, 912-913, 941-1154) -/

/-- canCreateVideo (part_001 line 732): at least one done-and-selected image
exists across all scenes (flatMap = map then flatten). -/
def canCreateVideo (scenes : List Scene) : Bool :=
  decide (0 < ((scenes.map (fun s => s.images.filter
    (fun img => img.status == ImageStatus.done && img.isSelected))).flatten).length)

/-- Overlay urls referenced by the export
(`scenes.map(s => s.overlay?.url).filter(url => !!url)`, part_001 line 948);
JS truthiness drops both null and the empty string. -/
def uniqueOverlayUrls (scenes : List Scene) : List String :=
  ((scenes.map (fun s => s.overlay.bind SceneOverlay.url)).filterMap id).filter
    (fun url => !(url == ""))

/-- All unique media urls preloaded by the export
(`[...new Set([...imageTimeline.map(img => img.url), ...uniqueOverlayUrls])]`,
part_001 line 949); eraseDups keeps first occurrences like a JS Set. -/
def allUrlsToLoad (scenes : List Scene) (rate : ℚ) : List String :=
  (((buildTimeline scenes rate).imageTimeline.map ImageTimelineEntry.url)
    ++ uniqueOverlayUrls scenes).eraseDups

/-- Observable side effects of the export path, in program order. -/
inductive ExportEffect where
  | setExportingTrue
  | preloadMedia (url : String)
  | createRecorder
  | startRecorder
  deriving DecidableEq, Repr

/-- Outcome of invoking handleCreateVideo. -/
inductive ExportOutcome where
  | rejected
  | started
  deriving DecidableEq, Repr

/-- handleCreateVideo's validation guard and effect prefix (part_001 line 913
`if (!canCreateVideo) return;`, line 941 setIsExporting(true), lines 953-976
preloads, lines 1064 and 1078 recorder creation and start): when no image is
eligible the call returns before any effect happens. -/
def handleCreateVideoAttempt (scenes : List Scene) (rate : ℚ) :
    ExportOutcome × List ExportEffect :=
  if !canCreateVideo scenes then (ExportOutcome.rejected, [])
  else (ExportOutcome.started,
    ExportEffect.setExportingTrue ::
      ((allUrlsToLoad scenes rate).map ExportEffect.preloadMedia
        ++ [ExportEffect.createRecorder, ExportEffect.startRecorder]))

/-- Export-related UI state of the video step (isExporting, videoReady,
exportedVideoUrl, and whether an error message was surfaced). -/
structure ExportUiState where
  isExporting : Bool
  videoReady : Bool
  exportedVideoUrl : Option String
  errorMessageShown : Bool
  deriving DecidableEq, Repr

/-- Control flow of handleCreateVideo (part_001 lines 912-1154) on the export
UI state.  preloadOk says whether every preload promise resolves; recordOk
whether the work inside the try block succeeds.  Key source fact: the
`await Promise.all(preloadPromises)` barrier (line 976) sits before the `try`
that begins at line 981, so a preload rejection escapes the async function
right after the line 941-943 updates and no catch runs; failures inside the
try reach the catch (lines 1150-1154), which surfaces the error message and
clears isExporting; success reaches recorder.onstop (lines 1069-1076). -/
def handleCreateVideoRun (scenes : List Scene) (preloadOk recordOk : Bool) :
    ExportUiState :=
  if !canCreateVideo scenes then
    { isExporting := false, videoReady := false, exportedVideoUrl := none,
      errorMessageShown := false }
  else if !preloadOk then
    { isExporting := true, videoReady := false, exportedVideoUrl := none,
      errorMessageShown := false }
  else if !recordOk then
    { isExporting := false, videoReady := false, exportedVideoUrl := none,
      errorMessageShown := true }
  else
    { isExporting := false, videoReady := true, exportedVideoUrl := some "blob:video",
      errorMessageShown := false }

/-- handleCreateVideo of the VideoStep.tsx variant (lines 405-493, the
version App.tsx imports): its only guard is `if (!videoConfig.audioFile)
return;` — there is no eligible-image check.  With an audio file present it
sets the exporting flag, preloads the timeline's unique image urls
(`[...new Set(imageTimeline.map(img => img.url))]`, line 439 — empty when no
image is eligible), creates a MediaRecorder (line 477) and starts it
(line 491). -/
def handleCreateVideoAttemptVS (scenes : List Scene) (cfg : VideoConfig) (rate : ℚ) :
    ExportOutcome × List ExportEffect :=
  if !cfg.hasAudioFile then (ExportOutcome.rejected, [])
  else (ExportOutcome.started,
    ExportEffect.setExportingTrue ::
      ((((buildTimeline scenes rate).imageTimeline.map ImageTimelineEntry.url).eraseDups).map
          ExportEffect.preloadMedia
        ++ [ExportEffect.createRecorder, ExportEffect.startRecorder]))

/-- A scene list with exactly one image, which is not eligible (status idle). -/
def c5Image : ComicImage :=
  { id := "idle1", url := "u", isSelected := true, status := ImageStatus.idle, duration := 3 }

def c5Scenes : List Scene :=
  [{ id := "sceneI", description := "no eligible image", images := [c5Image] }]

/-- A narration configuration with an uploaded audio file. -/
def c5Config : VideoConfig := { hasAudioFile := true, trimStart := 0, trimEnd := none }

/-! ## Overlay geometry editor (handleOverlayInteractionStart, part_001
lines 331-391; drawFrame overlay placement, lines 1133-1136) -/

/-- A rectangle in pixel coordinates. -/
structure PixelRect where
  x : ℚ
  y : ℚ
  width : ℚ
  height : ℚ
  deriving DecidableEq, Repr

/-- Drag-start pixel rectangle computed from the overlay's percentage values
against the container size (part_001 lines 343-348); drawFrame applies the
same conversion against the 1280x720 export frame (lines 1133-1136). -/
def overlayStartRect (o : SceneOverlay) (containerWidth containerHeight : ℚ) : PixelRect :=
  { x := (o.x / 100) * containerWidth,
    y := (o.y / 100) * containerHeight,
    width := (o.width / 100) * containerWidth,
    height := (o.height / 100) * containerHeight }

/-- Commit of a pixel rectangle back to percentages of the container
(part_001 lines 374-380). -/
def commitOverlayRect (o : SceneOverlay) (r : PixelRect)
    (containerWidth containerHeight : ℚ) : SceneOverlay :=
  { o with
    x := (r.x / containerWidth) * 100,
    y := (r.y / containerHeight) * 100,
    width := (r.width / containerWidth) * 100,
    height := (r.height / containerHeight) * 100 }

/-- A concrete overlay configuration. -/
def sampleOverlay : SceneOverlay :=
  { hasFile := true, url := some "ov1", type := OverlayType.image, volume := 1,
    x := 10, y := 20, width := 30, height := 40 }

/-! ## Background-music synchronizer (preview: part_001 lines 453-470;
export: part_001 lines 1012-1034 and part_002 lines 805-828) -/

/-- JavaScript truthiness of a nullable string (null and "" are falsy). -/
def strTruthy : Option String → Bool
  | none => false
  | some s => !(s == "")

/-- `scene.backgroundMusicTrimStart ?? 0` (part_001 lines 460 and 1023). -/
def bgTrimStartOf (scene : Scene) : ℚ :=
  scene.backgroundMusicTrimStart.getD 0

/-- `scene.backgroundMusicTrimEnd ?? scene.backgroundMusicDuration ?? 0`
(part_001 lines 461 and 1024). -/
def bgTrimEndOf (scene : Scene) : ℚ :=
  scene.backgroundMusicTrimEnd.getD (scene.backgroundMusicDuration.getD 0)

/-- Observable state of the preview's background-music element. -/
structure BgMusicState where
  currentTime : ℚ
  paused : Bool
  deriving DecidableEq, Repr

/-- The preview synchronizer's timeupdate handler (part_001 lines 457-467):
when the track (with a truthy url) reaches its trim end it is re-seeked to
the trim start, and resumed if it had paused while the transport is playing. -/
def bgMusicTimeUpdate (scene : Scene) (playbackPlaying : Bool) (st : BgMusicState) :
    BgMusicState :=
  if !(strTruthy scene.backgroundMusicUrl) then st
  else
    let trimStart := bgTrimStartOf scene
    let trimEnd := bgTrimEndOf scene
    if trimStart < trimEnd ∧ trimEnd ≤ st.currentTime then
      { currentTime := trimStart, paused := st.paused && !playbackPlaying }
    else st

/-- Configuration applied to a scene's background-music buffer source during
export: loop flag and boundaries, gain, and the arguments of the
start(when, offset, duration) call. -/
structure MusicSourceConfig where
  loop : Bool
  loopStart : ℚ
  loopEnd : ℚ
  gain : ℚ
  startWhen : ℚ
  startOffset : ℚ
  startDuration : ℚ
  deriving DecidableEq, Repr

/-- Export music source setup of part_001 (lines 1012-1034): loop is enabled
when the trimmed window is positive and shorter than the scene duration, but
loopStart and loopEnd are never assigned and keep the Web Audio default 0;
the source starts at the scene's timeline start, reading from the trim start,
for the scene duration, at volume `backgroundMusicVolume ?? 0.2`. -/
def musicSourceConfigPart1 (scene : Scene) (sceneTimings : List SceneTiming) :
    Option MusicSourceConfig :=
  match sceneTimings.find? (fun t => t.id == scene.id) with
  | none => none
  | some sceneTiming =>
      if sceneTiming.duration ≤ 0 then none
      else if scene.backgroundMusicFile then
        let bgTrimStart := bgTrimStartOf scene
        let bgTrimEnd := bgTrimEndOf scene
        let bgTrimmedDuration := bgTrimEnd - bgTrimStart
        some { loop := decide (0 < bgTrimmedDuration
                  ∧ bgTrimmedDuration < sceneTiming.duration),
               loopStart := 0, loopEnd := 0,
               gain := scene.backgroundMusicVolume.getD (1/5),
               startWhen := sceneTiming.startTime,
               startOffset := bgTrimStart,
               startDuration := sceneTiming.duration }
      else none

/-- Export music source setup of part_002 (lines 805-828): as part_001, but
when looping is enabled the loop boundaries are set to the trim window
(loopStart = trim start, loopEnd = trim end, lines 818-820). -/
def musicSourceConfigPart2 (scene : Scene) (sceneTimings : List SceneTiming) :
    Option MusicSourceConfig :=
  match sceneTimings.find? (fun t => t.id == scene.id) with
  | none => none
  | some sceneTiming =>
      if scene.backgroundMusicFile && decide (0 < sceneTiming.duration) then
        let bgTrimStart := bgTrimStartOf scene
        let bgTrimEnd := bgTrimEndOf scene
        let bgTrimmedDuration := bgTrimEnd - bgTrimStart
        let looping := decide (0 < bgTrimmedDuration
          ∧ bgTrimmedDuration < sceneTiming.duration)
        some { loop := looping,
               loopStart := if looping then bgTrimStart else 0,
               loopEnd := if looping then bgTrimEnd else 0,
               gain := scene.backgroundMusicVolume.getD (1/5),
               startWhen := sceneTiming.startTime,
               startOffset := bgTrimStart,
               startDuration := sceneTiming.duration }
      else none

/-- A scene with background music trimmed to the window [1, 3] of a 20s
track, placed in a timing list giving it 10s of scene time from t = 5. -/
def c7Scene : Scene :=
  { id := "sceneM", description := "scene with looped music", images := [],
    backgroundMusicFile := true, backgroundMusicUrl := some "music1",
    backgroundMusicVolume := some 1, backgroundMusicTrimStart := some 1,
    backgroundMusicTrimEnd := some 3, backgroundMusicDuration := some 20 }

def c7Timings : List SceneTiming := [{ id := "sceneM", startTime := 5, duration := 10 }]

/-! ## Batch image generation (SceneStep.tsx lines 61-136) -/

/-- updateImageStatus's per-image update (SceneStep.tsx lines 66-72): a newly
done image is always marked selected; the url is replaced only when given. -/
def updateImage (imageId : String) (newStatus : ImageStatus) (newUrl : Option String)
    (img : ComicImage) : ComicImage :=
  if img.id == imageId then
    { img with
      status := newStatus
      url := newUrl.getD img.url
      isSelected := if newStatus == ImageStatus.done then true else img.isSelected }
  else img

/-- updateImageStatus's per-scene update (SceneStep.tsx lines 62-75). -/
def updateOneScene (sceneId imageId : String) (newStatus : ImageStatus)
    (newUrl : Option String) (scene : Scene) : Scene :=
  if scene.id == sceneId then
    { scene with images := scene.images.map (updateImage imageId newStatus newUrl) }
  else scene

/-- updateImageStatus (SceneStep.tsx lines 61-77): functional update of the
scene list. -/
def updateImageStatus (scenes : List Scene) (sceneId imageId : String)
    (newStatus : ImageStatus) (newUrl : Option String) : List Scene :=
  scenes.map (updateOneScene sceneId imageId newStatus newUrl)

/-- The shouldGenerate test of handleBatchGenerate (SceneStep.tsx line 110):
every image of the scene is neither done nor generating. -/
def shouldGenerateScene (scene : Scene) : Bool :=
  scene.images.all (fun img =>
    !(img.status == ImageStatus.done) && !(img.status == ImageStatus.generating))

/-- The generating placeholder image (SceneStep.tsx lines 112-118).  Its id is
`img-${Date.now()}-${Math.random()}` in the source, i.e. fresh; it is modelled
as a deterministic function of the scene id, which only needs to be a valid
lookup key within that scene. -/
def mkPlaceholder (sceneId : String) : ComicImage :=
  { id := "img-" ++ sceneId, url := "", isSelected := true,
    status := ImageStatus.generating, duration := 3 }

/-- Placeholder phase of handleBatchGenerate (SceneStep.tsx lines 108-125):
scenes that should generate have their image list replaced by a single
generating placeholder. -/
def scenesWithPlaceholders (scenes : List Scene) : List Scene :=
  scenes.map (fun scene =>
    if shouldGenerateScene scene then { scene with images := [mkPlaceholder scene.id] }
    else scene)

/-- One scene's generation attempt, runImageGeneration (SceneStep.tsx lines
79-102), acting on the current scene-list state.  `gen` abstracts the
external generateSceneImage call per scene id: some url on success, none on
any failure (including the missing-key early error path); the interim
status='generating' update of line 86 and the final done/error update are
both applied through updateImageStatus. -/
def runImageGenerationStep (st : List Scene) (scene : Scene)
    (gen : String → Option String) : List Scene :=
  let imageId := (mkPlaceholder scene.id).id
  let st1 := updateImageStatus st scene.id imageId ImageStatus.generating none
  match gen scene.id with
  | some url => updateImageStatus st1 scene.id imageId ImageStatus.done (some url)
  | none => updateImageStatus st1 scene.id imageId ImageStatus.error none

/-- handleBatchGenerate (SceneStep.tsx lines 104-136): after the placeholder
phase, the scenes are processed strictly sequentially in scene order; a scene
is processed iff a placeholder was created for it, and each attempt updates
the accumulated state through updateImageStatus. -/
def handleBatchGenerate (scenes : List Scene) (gen : String → Option String) : List Scene :=
  scenes.foldl
    (fun st scene =>
      if shouldGenerateScene scene then runImageGenerationStep st scene gen else st)
    (scenesWithPlaceholders scenes)

/-- Pointwise action on a single scene-list entry of processing scene
`scene`; used to reorganize the fold of handleBatchGenerate. -/
def genUpdateScene (scene : Scene) (gen : String → Option String) (sc : Scene) : Scene :=
  if shouldGenerateScene scene then
    let imageId := (mkPlaceholder scene.id).id
    let sc1 := updateOneScene scene.id imageId ImageStatus.generating none sc
    match gen scene.id with
    | some url => updateOneScene scene.id imageId ImageStatus.done (some url) sc1
    | none => updateOneScene scene.id imageId ImageStatus.error none sc1
  else sc

/-- Spec-side expected final state of one scene after a batch run: a
processed scene ends with exactly one image — done, selected and holding the
generated url on success; error (url empty, still selected) on failure — and
an unprocessed scene is untouched. -/
def c9Expected (s : Scene) (gen : String → Option String) : Scene :=
  if shouldGenerateScene s then
    match gen s.id with
    | some url =>
        { s with images := [{ id := (mkPlaceholder s.id).id, url := url,
                              isSelected := true, status := ImageStatus.done,
                              duration := 3 }] }
    | none =>
        { s with images := [{ id := (mkPlaceholder s.id).id, url := "",
                              isSelected := true, status := ImageStatus.error,
                              duration := 3 }] }
  else s

/-- Two empty scenes for a batch run in which the first scene's generation
fails and the second succeeds (the spec's two-scene scenario). -/
def c9SceneA : Scene := { id := "sceneA9", description := "batch scene A", images := [] }

def c9SceneB : Scene := { id := "sceneB9", description := "batch scene B", images := [] }

def c9Gen : String → Option String :=
  fun sid => if sid == "sceneB9" then some "generatedB" else none

/-! ## Automatic duration adjustment (handleAutoAdjustDurations, part_001
lines 777-837; VideoStep.tsx lines 257-319) -/

/-- The eligibility test as written in handleAutoAdjustDurations
(`img.isSelected && img.status === 'done'`). -/
def autoAdjustEligible (img : ComicImage) : Bool :=
  img.isSelected && img.status == ImageStatus.done

/-- Word count of a scene description:
`description.split(/\s+/).filter(Boolean).length`. -/
def wordCount (s : String) : Nat :=
  ((s.split (fun c => c.isWhitespace)).filter (fun w => !(w == ""))).length

/-- `parseFloat(x.toFixed(1))`: rounding to one decimal place (modelled as
round half up; the claim below does not depend on the tie-breaking rule). -/
def toFixed1 (x : ℚ) : ℚ := ((⌊x * 10 + 1/2⌋ : ℤ) : ℚ) / 10

def BASE_DURATION_PER_IMAGE : ℚ := 1

def MIN_DURATION_PER_IMAGE : ℚ := 1/5

/-- handleAutoAdjustDurations (part_001 lines 777-837): distributes the
trimmed narration duration over the done-and-selected images, either evenly
(short audio) or weighted by each scene's description word count, always
flooring the assigned duration at MIN_DURATION_PER_IMAGE.  The source's
sceneWordCounts Map keyed by scene id is modelled by reading the word count
directly off the scene, exact for the app's unique scene ids. -/
def handleAutoAdjustDurations (scenes : List Scene) (cfg : VideoConfig)
    (audioDuration : ℚ) : List Scene :=
  if !cfg.hasAudioFile || audioDuration == 0 then scenes
  else
    let trimmedAudioDuration := cfg.trimEnd.getD audioDuration - cfg.trimStart
    if trimmedAudioDuration ≤ 0 then scenes
    else
      let allSelectedImages := (scenes.map (fun s => s.images.filter
        (fun img => img.status == ImageStatus.done && img.isSelected))).flatten
      let totalSelectedImages := allSelectedImages.length
      if totalSelectedImages == 0 then scenes
      else
        let totalBaseDuration := (totalSelectedImages : ℚ) * BASE_DURATION_PER_IMAGE
        if trimmedAudioDuration ≤ totalBaseDuration then
          let evenDuration := toFixed1 (trimmedAudioDuration / (totalSelectedImages : ℚ))
          let finalDuration := max MIN_DURATION_PER_IMAGE evenDuration
          scenes.map (fun scene =>
            { scene with images := scene.images.map (fun img =>
                if autoAdjustEligible img then { img with duration := finalDuration }
                else img) })
        else
          let remainingDuration := trimmedAudioDuration - totalBaseDuration
          let wordScenes := scenes.filter (fun s => s.images.any autoAdjustEligible)
          let totalWords := (wordScenes.map (fun s => wordCount s.description)).sum
          let additionalTimePerWord :=
            if 0 < totalWords then remainingDuration / (totalWords : ℚ) else 0
          scenes.map (fun scene =>
            let selectedImagesInScene := scene.images.filter autoAdjustEligible
            if selectedImagesInScene.length == 0 then scene
            else
              let sceneWordCount := wordCount scene.description
              let additionalDurationForScene := (sceneWordCount : ℚ) * additionalTimePerWord
              let additionalDurationPerImage :=
                additionalDurationForScene / (selectedImagesInScene.length : ℚ)
              let newDuration :=
                toFixed1 (BASE_DURATION_PER_IMAGE + additionalDurationPerImage)
              let finalDuration := max MIN_DURATION_PER_IMAGE newDuration
              { scene with images := scene.images.map (fun img =>
                  if autoAdjustEligible img then { img with duration := finalDuration }
                  else img) })

/-- The per-scene relation asserted by claim C10: all non-image fields of the
scene are unchanged, image count and order are preserved, every
done-and-selected image keeps all its fields except duration and receives a
duration of at least MIN_DURATION_PER_IMAGE, and every other image is
literally unchanged. -/
def AdjustedScene (s sNew : Scene) : Prop :=
  sNew = { s with images := sNew.images }
  ∧ List.Forall₂ (fun img imgNew =>
      if autoAdjustEligible img = true then
        imgNew = { img with duration := imgNew.duration }
        ∧ MIN_DURATION_PER_IMAGE ≤ imgNew.duration
      else imgNew = img) s.images sNew.images

/-- Scenes for the C10 witness: one eligible image together with a
non-eligible one, and a narration long enough to hit the word-count branch. -/
def c10ImageIdle : ComicImage :=
  { id := "c10idle", url := "ui", isSelected := false, status := ImageStatus.idle,
    duration := 3 }

def c10ImageDone : ComicImage :=
  { id := "c10done", url := "ud", isSelected := true, status := ImageStatus.done,
    duration := 3 }

def c10Scenes : List Scene :=
  [{ id := "sceneT", description := "a few words here", images := [c10ImageDone, c10ImageIdle] }]

def c10Config : VideoConfig := { hasAudioFile := true, trimStart := 0, trimEnd := some 10 }

/-! ## Theorems -/

theorem chained_append {l1 l2 : List ImageTimelineEntry} {a b c : ℚ}
    (h1 : Chained l1 a b) (h2 : Chained l2 b c) : Chained (l1 ++ l2) a c := by
  induction l1 generalizing a with
  | nil => simp only [Chained] at h1; simpa [h1] using h2
  | cons e l ih =>
      obtain ⟨he, hl⟩ := h1
      exact ⟨he, ih hl⟩

theorem pushImages_spec (images : List ComicImage) (rate cumulative sceneDuration : ℚ) :
    (pushImages images rate cumulative sceneDuration).2.1
        = cumulative + ((images.map (fun i => i.duration / rate)).sum)
    ∧ (pushImages images rate cumulative sceneDuration).2.2
        = sceneDuration + ((images.map (fun i => i.duration / rate)).sum)
    ∧ Chained (pushImages images rate cumulative sceneDuration).1 cumulative
        ((pushImages images rate cumulative sceneDuration).2.1) := by
  induction images generalizing cumulative sceneDuration with
  | nil => simp [pushImages, Chained]
  | cons image rest ih =>
      obtain ⟨h1, h2, h3⟩ :=
        ih (cumulative + image.duration / rate) (sceneDuration + image.duration / rate)
      refine ⟨?_, ?_, ?_⟩
      · simp only [pushImages, List.map_cons, List.sum_cons]
        rw [h1]; ring
      · simp only [pushImages, List.map_cons, List.sum_cons]
        rw [h2]; ring
      · simp only [pushImages]
        exact ⟨rfl, h3⟩

theorem buildScenes_total (scenes : List Scene) (rate cumulative : ℚ) :
    (buildScenes scenes rate cumulative).2.2
      = cumulative + ((scenes.map (fun s => sceneRateSum s rate)).sum) := by
  induction scenes generalizing cumulative with
  | nil => simp [buildScenes]
  | cons scene rest ih =>
      obtain ⟨h1, _, _⟩ := pushImages_spec (selectedDoneImages scene) rate cumulative 0
      simp only [buildScenes, List.map_cons, List.sum_cons]
      rw [ih, h1]
      simp only [sceneRateSum]
      ring

theorem buildScenes_chained (scenes : List Scene) (rate cumulative : ℚ) :
    Chained (buildScenes scenes rate cumulative).1 cumulative
      ((buildScenes scenes rate cumulative).2.2) := by
  induction scenes generalizing cumulative with
  | nil => simp [buildScenes, Chained]
  | cons scene rest ih =>
      obtain ⟨h1, _, h3⟩ := pushImages_spec (selectedDoneImages scene) rate cumulative 0
      simp only [buildScenes]
      exact chained_append h3 (ih _)

theorem buildScenes_timings (scenes : List Scene) (rate cumulative : ℚ) :
    (buildScenes scenes rate cumulative).2.1 = expectedTimingsAtRate scenes rate cumulative := by
  induction scenes generalizing cumulative with
  | nil => simp [buildScenes, expectedTimingsAtRate]
  | cons scene rest ih =>
      obtain ⟨h1, h2, _⟩ := pushImages_spec (selectedDoneImages scene) rate cumulative 0
      simp only [buildScenes, expectedTimingsAtRate, List.cons.injEq, SceneTiming.mk.injEq,
        true_and]
      constructor
      · rw [h2]
        simp [sceneRateSum]
      · rw [ih, h1]
        simp [sceneRateSum]

theorem sceneRateSum_one (scene : Scene) : sceneRateSum scene 1 = sceneEligibleSum scene := by
  simp [sceneRateSum, sceneEligibleSum]

theorem expectedTimingsAtRate_one (scenes : List Scene) (t : ℚ) :
    expectedTimingsAtRate scenes 1 t = expectedSceneTimings scenes t := by
  induction scenes generalizing t with
  | nil => simp [expectedTimingsAtRate, expectedSceneTimings]
  | cons scene rest ih =>
      simp only [expectedTimingsAtRate, expectedSceneTimings, sceneRateSum_one]
      rw [ih]

theorem chained_start_le {l : List ImageTimelineEntry} {a b : ℚ}
    (hc : Chained l a b) (hmono : ∀ e ∈ l, e.startTime ≤ e.endTime) :
    ∀ e ∈ l, a ≤ e.startTime := by
  induction l generalizing a with
  | nil => intro e he; cases he
  | cons x l ih =>
      obtain ⟨hx, hl⟩ := hc
      intro e he
      rcases List.mem_cons.mp he with rfl | he'
      · exact le_of_eq hx.symm
      · have hx_le : a ≤ x.endTime := hx ▸ hmono x (List.mem_cons_self x l)
        exact le_trans hx_le (ih hl (fun e' he'' => hmono e' (List.mem_cons_of_mem _ he'')) e he')

theorem chained_disjoint {l : List ImageTimelineEntry} {a b : ℚ}
    (hc : Chained l a b) (hmono : ∀ e ∈ l, e.startTime ≤ e.endTime) :
    ∀ i j : Fin l.length, i.val < j.val → (l.get i).endTime ≤ (l.get j).startTime := by
  induction l generalizing a with
  | nil => intro i; exact absurd i.isLt (by simp)
  | cons x l ih =>
      obtain ⟨hx, hl⟩ := hc
      intro i j hij
      have hmono' : ∀ e ∈ l, e.startTime ≤ e.endTime :=
        fun e he => hmono e (List.mem_cons_of_mem _ he)
      match i, j with
      | ⟨0, _⟩, ⟨j' + 1, hj⟩ =>
          have hj' : j' < l.length := Nat.lt_of_succ_lt_succ hj
          have hmem : l.get ⟨j', hj'⟩ ∈ l := List.get_mem l j' hj'
          have := chained_start_le hl hmono' _ hmem
          simpa using this
      | ⟨i' + 1, hi⟩, ⟨j' + 1, hj⟩ =>
          have hi' : i' < l.length := Nat.lt_of_succ_lt_succ hi
          have hj' : j' < l.length := Nat.lt_of_succ_lt_succ hj
          have := ih hl hmono' ⟨i', hi'⟩ ⟨j', hj'⟩ (Nat.lt_of_succ_lt_succ hij)
          simpa using this

theorem pushImages_entry_mono (images : List ComicImage) (rate cumulative sceneDuration : ℚ)
    (hpos : ∀ img ∈ images, 0 ≤ img.duration / rate) :
    ∀ e ∈ (pushImages images rate cumulative sceneDuration).1, e.startTime ≤ e.endTime := by
  induction images generalizing cumulative sceneDuration with
  | nil => intro e he; simp [pushImages] at he
  | cons image rest ih =>
      intro e he
      simp only [pushImages, List.mem_cons] at he
      rcases he with rfl | he'
      · have := hpos image (List.mem_cons_self image rest)
        simp only []
        linarith
      · exact ih _ _ (fun img hm => hpos img (List.mem_cons_of_mem _ hm)) e he'

theorem buildScenes_entry_mono (scenes : List Scene) (rate cumulative : ℚ)
    (hpos : ∀ s ∈ scenes, ∀ img ∈ selectedDoneImages s, 0 ≤ img.duration / rate) :
    ∀ e ∈ (buildScenes scenes rate cumulative).1, e.startTime ≤ e.endTime := by
  induction scenes generalizing cumulative with
  | nil => intro e he; simp [buildScenes] at he
  | cons scene rest ih =>
      intro e he
      simp only [buildScenes, List.mem_append] at he
      rcases he with he' | he'
      · exact pushImages_entry_mono _ _ _ _
          (hpos scene (List.mem_cons_self scene rest)) e he'
      · exact ih _ (fun s hs => hpos s (List.mem_cons_of_mem _ hs)) e he'

/-- Claim C1: for every scene list (with the data-model invariant that
contributing image durations are positive), the timeline built by
handleCreateVideo at nominal rate 1 satisfies: totalDuration is the sum of
all done-and-selected image durations across all scenes; the segments chain
contiguously from time 0 up to totalDuration and are pairwise non-overlapping;
and every scene, including one with no eligible images, receives exactly one
SceneTiming entry whose start is the cumulative time reached before it and
whose duration is the sum of its own eligible image durations. -/
theorem c1_timeline_builder (scenes : List Scene)
    (hpos : ∀ s ∈ scenes, ∀ img ∈ selectedDoneImages s, 0 < img.duration) :
    (buildTimeline scenes 1).totalDuration = (scenes.map sceneEligibleSum).sum
    ∧ Chained (buildTimeline scenes 1).imageTimeline 0 ((buildTimeline scenes 1).totalDuration)
    ∧ (buildTimeline scenes 1).sceneTimings = expectedSceneTimings scenes 0
    ∧ ∀ i j : Fin (buildTimeline scenes 1).imageTimeline.length, i.val < j.val →
        ((buildTimeline scenes 1).imageTimeline.get i).endTime
          ≤ ((buildTimeline scenes 1).imageTimeline.get j).startTime := by
  have hmono : ∀ e ∈ (buildScenes scenes 1 0).1, e.startTime ≤ e.endTime := by
    apply buildScenes_entry_mono
    intro s hs img himg
    have := hpos s hs img himg
    simpa using le_of_lt this
  refine ⟨?_, ?_, ?_, ?_⟩
  · have := buildScenes_total scenes 1 0
    simp only [buildTimeline]
    rw [this]
    simp [sceneRateSum_one]
  · simpa [buildTimeline] using buildScenes_chained scenes 1 0
  · simp only [buildTimeline]
    rw [buildScenes_timings, expectedTimingsAtRate_one]
  · intro i j hij
    exact chained_disjoint (buildScenes_chained scenes 1 0) hmono i j hij

theorem c1_timeline_builder_witness :
    (∀ s ∈ sampleScenes, ∀ img ∈ selectedDoneImages s, 0 < img.duration)
    ∧ ((buildTimeline sampleScenes 1).totalDuration = (sampleScenes.map sceneEligibleSum).sum
       ∧ Chained (buildTimeline sampleScenes 1).imageTimeline 0
           ((buildTimeline sampleScenes 1).totalDuration)
       ∧ (buildTimeline sampleScenes 1).sceneTimings = expectedSceneTimings sampleScenes 0
       ∧ ∀ i j : Fin (buildTimeline sampleScenes 1).imageTimeline.length, i.val < j.val →
           ((buildTimeline sampleScenes 1).imageTimeline.get i).endTime
             ≤ ((buildTimeline sampleScenes 1).imageTimeline.get j).startTime) :=
  ⟨by simp [sampleScenes, sampleSceneA, sampleSceneB, sampleSceneC, selectedDoneImages,
      sampleImage1, sampleImage2, sampleImage3],
   c1_timeline_builder sampleScenes (by simp [sampleScenes, sampleSceneA, sampleSceneB,
      sampleSceneC, selectedDoneImages, sampleImage1, sampleImage2, sampleImage3])⟩

theorem segmentMatch_eq_decide (u : ℚ) (e : ImageTimelineEntry) :
    segmentMatch u e = decide (e.startTime ≤ u ∧ u < e.endTime) := by
  simp [segmentMatch, Bool.decide_and]

theorem jsFindIndex_none {α : Type} (p : α → Bool) (l : List α)
    (h : ∀ x ∈ l, p x = false) : jsFindIndex p l = -1 := by
  induction l with
  | nil => rfl
  | cons x xs ih =>
      have hx := h x (List.mem_cons_self x xs)
      have hxs := ih (fun y hy => h y (List.mem_cons_of_mem _ hy))
      simp [jsFindIndex, hx, hxs]

theorem chained_lookup {l : List ImageTimelineEntry} {a b t : ℚ}
    (hc : Chained l a b) (hpos : ∀ e ∈ l, e.startTime < e.endTime)
    (hat : a ≤ t) (htb : t < b) :
    ∃ i : Fin l.length, jsFindIndex (segmentMatch t) l = (i.val : Int)
      ∧ ((l.get i).startTime ≤ t ∧ t < (l.get i).endTime)
      ∧ ∀ j : Fin l.length, ((l.get j).startTime ≤ t ∧ t < (l.get j).endTime) → j = i := by
  induction l generalizing a with
  | nil =>
      simp only [Chained] at hc
      exact absurd (hc ▸ htb) (not_lt.mpr hat)
  | cons e rest ih =>
      obtain ⟨he, hrest⟩ := hc
      have hpos' : ∀ x ∈ rest, x.startTime < x.endTime :=
        fun x hx => hpos x (List.mem_cons_of_mem _ hx)
      have hmono' : ∀ x ∈ rest, x.startTime ≤ x.endTime :=
        fun x hx => le_of_lt (hpos' x hx)
      by_cases ht : t < e.endTime
      · refine ⟨⟨0, by simp⟩, ?_, ?_, ?_⟩
        · have hm : segmentMatch t e = true := by
            rw [segmentMatch_eq_decide]
            exact decide_eq_true ⟨he ▸ hat, ht⟩
          simp [jsFindIndex, hm]
        · exact ⟨he ▸ hat, ht⟩
        · intro j hj
          match j with
          | ⟨0, _⟩ => rfl
          | ⟨j' + 1, hjlt⟩ =>
              have hj' : j' < rest.length := Nat.lt_of_succ_lt_succ hjlt
              have hmem : rest.get ⟨j', hj'⟩ ∈ rest := List.get_mem rest j' hj'
              have hge := chained_start_le hrest hmono' _ hmem
              have hcont : (rest.get ⟨j', hj'⟩).startTime ≤ t := by simpa using hj.1
              exact absurd (lt_of_le_of_lt (le_trans hge hcont) ht) (lt_irrefl _)
      · have hl : e.endTime ≤ t := not_lt.mp ht
        have hm : segmentMatch t e = false := by
          rw [segmentMatch_eq_decide]
          exact decide_eq_false (fun hcon => ht hcon.2)
        obtain ⟨i', hfind', hcont', huniq'⟩ := ih hrest hpos' hl
        refine ⟨⟨i'.val + 1, Nat.succ_lt_succ i'.isLt⟩, ?_, ?_, ?_⟩
        · have hne : jsFindIndex (segmentMatch t) rest ≠ -1 := by
            rw [hfind']; omega
          simp only [jsFindIndex, hm, Bool.false_eq_true, if_false, hfind']
          rw [if_neg (by omega : ¬((i'.val : Int)) = -1)]
          push_cast
          ring
        · simpa using hcont'
        · intro j hj
          match j with
          | ⟨0, hjlt⟩ =>
              exact absurd hj.2 (by simpa using ht)
          | ⟨j' + 1, hjlt⟩ =>
              have hj' : j' < rest.length := Nat.lt_of_succ_lt_succ hjlt
              have := huniq' ⟨j', hj'⟩ (by simpa using hj)
              have hval : j' = i'.val := congrArg Fin.val this
              exact Fin.ext (by simpa using congrArg Nat.succ hval)

/-- Claim C2: for every timeline built by handleCreateVideo whose segments
all have positive duration and every time t with 0 <= t < totalDuration, the
active-segment lookup of drawFrame returns exactly the index of the unique
segment whose half-open range contains t; and, on any segment list at all,
when no segment's range contains the probed time but it is still before
totalDuration, the lookup clamps to the last index. -/
theorem c2_active_segment_lookup (scenes : List Scene) (rate t : ℚ)
    (hpos : ∀ e ∈ (buildTimeline scenes rate).imageTimeline, e.startTime < e.endTime)
    (h0 : 0 ≤ t) (ht : t < (buildTimeline scenes rate).totalDuration) :
    (∃ i : Fin (buildTimeline scenes rate).imageTimeline.length,
        currentSegmentIndex (buildTimeline scenes rate).imageTimeline t
            ((buildTimeline scenes rate).totalDuration) = (i.val : Int)
        ∧ (((buildTimeline scenes rate).imageTimeline.get i).startTime ≤ t
            ∧ t < ((buildTimeline scenes rate).imageTimeline.get i).endTime)
        ∧ ∀ j : Fin (buildTimeline scenes rate).imageTimeline.length,
            (((buildTimeline scenes rate).imageTimeline.get j).startTime ≤ t
              ∧ t < ((buildTimeline scenes rate).imageTimeline.get j).endTime) → j = i)
    ∧ ∀ (l : List ImageTimelineEntry) (u total : ℚ),
        (∀ e ∈ l, ¬(e.startTime ≤ u ∧ u < e.endTime)) → u < total →
        currentSegmentIndex l u total = (l.length : Int) - 1 := by
  constructor
  · have hchain : Chained (buildTimeline scenes rate).imageTimeline 0
        ((buildTimeline scenes rate).totalDuration) := by
      simpa [buildTimeline] using buildScenes_chained scenes rate 0
    obtain ⟨i, hfind, hcont, huniq⟩ := chained_lookup hchain hpos h0 ht
    refine ⟨i, ?_, hcont, huniq⟩
    have hne : ¬((i.val : Int) = -1) := by omega
    simp only [currentSegmentIndex, hfind]
    rw [if_neg (fun hcon => hne hcon.1)]
  · intro l u total hno hu
    have hfound : jsFindIndex (segmentMatch u) l = -1 :=
      jsFindIndex_none _ _ (fun e he => by
        rw [segmentMatch_eq_decide]
        exact decide_eq_false (hno e he))
    simp [currentSegmentIndex, hfound, hu]

theorem sum_map_div {α : Type} (l : List α) (f : α → ℚ) (r : ℚ) :
    (l.map (fun x => f x / r)).sum = (l.map f).sum / r := by
  induction l with
  | nil => simp
  | cons a l ih => simp [ih, add_div]

theorem sceneRateSum_div (s : Scene) (r : ℚ) :
    sceneRateSum s r = sceneEligibleSum s / r := by
  simp only [sceneRateSum, sceneEligibleSum]
  exact sum_map_div _ ComicImage.duration r

theorem buildTotal_rate (scenes : List Scene) (rate : ℚ) :
    (buildTimeline scenes rate).totalDuration
      = (buildTimeline scenes 1).totalDuration / rate := by
  simp only [buildTimeline]
  rw [buildScenes_total, buildScenes_total]
  simp only [zero_add]
  calc (scenes.map (fun s => sceneRateSum s rate)).sum
      = (scenes.map (fun s => sceneEligibleSum s / rate)).sum := by
        simp only [sceneRateSum_div]
    _ = (scenes.map sceneEligibleSum).sum / rate := sum_map_div _ _ _
    _ = (scenes.map (fun s => sceneRateSum s 1)).sum / rate := by
        simp only [sceneRateSum_one]

theorem c2_active_segment_lookup_witness :
    (∀ e ∈ (buildTimeline sampleScenes 1).imageTimeline, e.startTime < e.endTime)
    ∧ (0:ℚ) ≤ 1
    ∧ (1:ℚ) < (buildTimeline sampleScenes 1).totalDuration
    ∧ ((∃ i : Fin (buildTimeline sampleScenes 1).imageTimeline.length,
          currentSegmentIndex (buildTimeline sampleScenes 1).imageTimeline 1
              ((buildTimeline sampleScenes 1).totalDuration) = (i.val : Int)
          ∧ (((buildTimeline sampleScenes 1).imageTimeline.get i).startTime ≤ 1
              ∧ (1:ℚ) < ((buildTimeline sampleScenes 1).imageTimeline.get i).endTime)
          ∧ ∀ j : Fin (buildTimeline sampleScenes 1).imageTimeline.length,
              (((buildTimeline sampleScenes 1).imageTimeline.get j).startTime ≤ 1
                ∧ (1:ℚ) < ((buildTimeline sampleScenes 1).imageTimeline.get j).endTime) → j = i)
       ∧ ∀ (l : List ImageTimelineEntry) (u total : ℚ),
          (∀ e ∈ l, ¬(e.startTime ≤ u ∧ u < e.endTime)) → u < total →
          currentSegmentIndex l u total = (l.length : Int) - 1) :=
  ⟨by norm_num [buildTimeline, buildScenes, pushImages, selectedDoneImages, sampleScenes,
      sampleSceneA, sampleSceneB, sampleSceneC, sampleImage1, sampleImage2, sampleImage3],
   by norm_num,
   by norm_num [buildTimeline, buildScenes, pushImages, selectedDoneImages, sampleScenes,
      sampleSceneA, sampleSceneB, sampleSceneC, sampleImage1, sampleImage2, sampleImage3],
   c2_active_segment_lookup sampleScenes 1 1
     (by norm_num [buildTimeline, buildScenes, pushImages, selectedDoneImages, sampleScenes,
        sampleSceneA, sampleSceneB, sampleSceneC, sampleImage1, sampleImage2, sampleImage3])
     (by norm_num)
     (by norm_num [buildTimeline, buildScenes, pushImages, selectedDoneImages, sampleScenes,
        sampleSceneA, sampleSceneB, sampleSceneC, sampleImage1, sampleImage2, sampleImage3])⟩

/-- Claim C3 amended: in both variants the cap on the narration start
duration is the rate-adjusted timeline total, i.e. the nominal total divided
by the rate — not the nominal total.  The part_001/part_002 export passes
min((trimEnd - trimStart)/rate, adjusted total); the VideoStep.tsx variant
(the one App.tsx imports) passes min(trimEnd - trimStart, adjusted total),
without dividing the trim window by the rate. -/
theorem c3_narration_duration_amended (scenes : List Scene) (cfg : VideoConfig)
    (audioDuration playbackRate : ℚ) :
    narrationStartDuration scenes cfg audioDuration playbackRate
      = min ((cfg.trimEnd.getD audioDuration - cfg.trimStart) / playbackRate)
          ((buildTimeline scenes 1).totalDuration / playbackRate)
    ∧ narrationStartDurationVS scenes cfg audioDuration playbackRate
      = min (cfg.trimEnd.getD audioDuration - cfg.trimStart)
          ((buildTimeline scenes 1).totalDuration / playbackRate) := by
  constructor
  · simp only [narrationStartDuration]
    rw [buildTotal_rate]
  · simp only [narrationStartDurationVS]
    rw [buildTotal_rate]

/-- Claim C3 counterexample: in the spec's concrete instance (trimStart 2,
trimEnd 10, playbackRate 2, nominal totalDuration 6s) the duration actually
fed to the narration source's start call is 3s, not the claimed 4s, at both
cited call sites: part_001 computes min((10-2)/2, 6/2) = 3 and VideoStep.tsx
computes min(10-2, 6/2) = 3 — the cap is the rate-adjusted total (6/2 = 3),
never the nominal 6. -/
theorem c3_narration_duration_counterexample :
    (buildTimeline [c3Scene] 1).totalDuration = 6
    ∧ narrationStartDuration [c3Scene] c3Config 12 2 = 3
    ∧ narrationStartDuration [c3Scene] c3Config 12 2 ≠ 4
    ∧ narrationStartDurationVS [c3Scene] c3Config 12 2 = 3
    ∧ narrationStartDurationVS [c3Scene] c3Config 12 2 ≠ 4 := by
  refine ⟨?_, ?_, ?_, ?_, ?_⟩ <;>
    norm_num [narrationStartDuration, narrationStartDurationVS, buildTimeline, buildScenes,
      pushImages, selectedDoneImages, c3Scene, c3Image, c3Config, min_def]

theorem rateAdjustImage_round (r : ℚ) (h : r ≠ 0) (img : ComicImage) :
    rateAdjustImage r⁻¹ (rateAdjustImage r img) = img := by
  cases img with
  | mk iid url sel st d =>
      simp only [rateAdjustImage, ComicImage.mk.injEq, true_and]
      field_simp

theorem rateAdjustScenes_round (r : ℚ) (h : r ≠ 0) (scenes : List Scene) :
    rateAdjustScenes r⁻¹ (rateAdjustScenes r scenes) = scenes := by
  induction scenes with
  | nil => rfl
  | cons s rest ih =>
      simp only [rateAdjustScenes, List.map_cons, List.cons.injEq] at ih ⊢
      refine ⟨?_, ih⟩
      cases s with
      | mk sid desc images f1 f2 f3 f4 f5 f6 ov =>
          simp only [Scene.mk.injEq, true_and, List.map_map, and_true]
          have hall : ∀ img ∈ images, (rateAdjustImage r⁻¹ ∘ rateAdjustImage r) img = id img :=
            fun img _ => rateAdjustImage_round r h img
          rw [List.map_congr_left hall, List.map_id]

theorem selectedDone_adjust (r : ℚ) (s : Scene) :
    selectedDoneImages { s with images := s.images.map (rateAdjustImage r) }
      = (selectedDoneImages s).map (rateAdjustImage r) := by
  simp only [selectedDoneImages]
  rw [List.filter_map]
  rfl

theorem pushImages_adjust (r : ℚ) (images : List ComicImage) (c sd : ℚ) :
    pushImages (images.map (rateAdjustImage r)) 1 c sd = pushImages images r c sd := by
  induction images generalizing c sd with
  | nil => rfl
  | cons image rest ih =>
      simp [pushImages, rateAdjustImage, ih, div_one]

theorem buildScenes_adjust (r : ℚ) (scenes : List Scene) (c : ℚ) :
    buildScenes (rateAdjustScenes r scenes) 1 c = buildScenes scenes r c := by
  induction scenes generalizing c with
  | nil => rfl
  | cons s rest ih =>
      simp only [rateAdjustScenes, List.map_cons] at ih ⊢
      simp only [buildScenes, selectedDone_adjust, pushImages_adjust, ih]

/-- Claim C4: applying the per-image rate-adjustment transform with rate r and
then again with rate 1/r reproduces the original nominal timeline exactly
(segments, scene timings and total duration); moreover the builder at rate r
is exactly the nominal builder applied to the rate-adjusted scene list. -/
theorem c4_rate_round_trip (scenes : List Scene) (r : ℚ) (h : r ≠ 0) :
    buildTimeline (rateAdjustScenes r⁻¹ (rateAdjustScenes r scenes)) 1
        = buildTimeline scenes 1
    ∧ buildTimeline (rateAdjustScenes r scenes) 1 = buildTimeline scenes r := by
  refine ⟨?_, ?_⟩
  · rw [rateAdjustScenes_round r h]
  · simp only [buildTimeline, buildScenes_adjust]

theorem c4_rate_round_trip_witness :
    ((2:ℚ) ≠ 0)
    ∧ (buildTimeline (rateAdjustScenes (2:ℚ)⁻¹ (rateAdjustScenes 2 sampleScenes)) 1
          = buildTimeline sampleScenes 1
       ∧ buildTimeline (rateAdjustScenes 2 sampleScenes) 1 = buildTimeline sampleScenes 2) :=
  ⟨by decide, c4_rate_round_trip sampleScenes 2 (by decide)⟩

theorem buildScenes_entries_nil (scenes : List Scene) (rate cumulative : ℚ)
    (h : ∀ s ∈ scenes, selectedDoneImages s = []) :
    (buildScenes scenes rate cumulative).1 = [] := by
  induction scenes generalizing cumulative with
  | nil => rfl
  | cons s rest ih =>
      simp only [buildScenes]
      rw [h s (List.mem_cons_self s rest)]
      simp only [pushImages, List.nil_append]
      exact ih _ (fun a ha => h a (List.mem_cons_of_mem _ ha))

/-- Claim C5 amended: with no done-and-selected image anywhere, the
part_001/part_002 export is rejected by its canCreateVideo guard before any
side effect — no preload starts, no recorder is created or started, and (the
model being a pure function of the scene list) no state changes; the
VideoStep.tsx variant (the one App.tsx imports) has no eligible-image guard
at all — it checks only for the narration audio file — so with an audio file
present it proceeds despite zero eligible images: it sets the exporting flag
and creates and starts a recorder over an empty timeline (nothing to
preload). -/
theorem c5_validation_guard_amended (scenes : List Scene) (cfg : VideoConfig) (rate : ℚ)
    (h : ∀ s ∈ scenes, ∀ img ∈ s.images,
      ¬(img.status = ImageStatus.done ∧ img.isSelected = true))
    (haudio : cfg.hasAudioFile = true) :
    canCreateVideo scenes = false
    ∧ handleCreateVideoAttempt scenes rate = (ExportOutcome.rejected, [])
    ∧ handleCreateVideoAttemptVS scenes cfg rate
        = (ExportOutcome.started,
           [ExportEffect.setExportingTrue, ExportEffect.createRecorder,
            ExportEffect.startRecorder]) := by
  have hsel : ∀ s ∈ scenes, selectedDoneImages s = [] := by
    intro s hs
    simp only [selectedDoneImages, List.filter_eq_nil_iff]
    intro img himg
    simp only [Bool.and_eq_true, beq_iff_eq]
    intro hcon
    exact h s hs img himg ⟨hcon.1, hcon.2⟩
  have hflat : (scenes.map (fun s => s.images.filter
      (fun img => img.status == ImageStatus.done && img.isSelected))).flatten = [] := by
    rw [List.flatten_eq_nil_iff]
    intro xs hxs
    obtain ⟨s, hs, rfl⟩ := List.mem_map.mp hxs
    exact hsel s hs
  have hcc : canCreateVideo scenes = false := by
    simp [canCreateVideo, hflat]
  have hentries : (buildTimeline scenes rate).imageTimeline = [] := by
    simpa [buildTimeline] using buildScenes_entries_nil scenes rate 0 hsel
  have hdedup : ([] : List String).eraseDups = [] := rfl
  refine ⟨hcc, by simp [handleCreateVideoAttempt, hcc], ?_⟩
  simp [handleCreateVideoAttemptVS, haudio, hentries, hdedup]

theorem c5_validation_guard_amended_witness :
    (∀ s ∈ c5Scenes, ∀ img ∈ s.images,
      ¬(img.status = ImageStatus.done ∧ img.isSelected = true))
    ∧ (c5Config.hasAudioFile = true)
    ∧ (canCreateVideo c5Scenes = false
       ∧ handleCreateVideoAttempt c5Scenes 1 = (ExportOutcome.rejected, [])
       ∧ handleCreateVideoAttemptVS c5Scenes c5Config 1
          = (ExportOutcome.started,
             [ExportEffect.setExportingTrue, ExportEffect.createRecorder,
              ExportEffect.startRecorder])) :=
  ⟨by decide, rfl, c5_validation_guard_amended c5Scenes c5Config 1 (by decide) rfl⟩

/-- Claim C5 counterexample: the VideoStep.tsx export (the variant App.tsx
imports) has no eligible-image guard: on a scene list whose only image is not
eligible, with an audio file uploaded, it proceeds — setting the exporting
flag and creating and starting a recorder — instead of being rejected before
any side effect, falsifying the claim at that cited call site. -/
theorem c5_videostep_counterexample :
    canCreateVideo c5Scenes = false
    ∧ handleCreateVideoAttemptVS c5Scenes c5Config 1
        = (ExportOutcome.started,
           [ExportEffect.setExportingTrue, ExportEffect.createRecorder,
            ExportEffect.startRecorder])
    ∧ ExportEffect.startRecorder
        ∈ (handleCreateVideoAttemptVS c5Scenes c5Config 1).2 := by
  decide

/-- Claim C6 (code bug, evaluated at the failing input): for a scene list that
passes validation, a preload failure escapes handleCreateVideo before its
try/catch (the Promise.all await at part_001 line 976 precedes the try at
line 981), so the exporting flag stays set and no error message is surfaced —
the system is left stuck in the exporting state, not in a clean
ready-to-retry state as the claim requires.  No partial blob is exposed. -/
theorem c6_preload_failure_leaves_exporting :
    canCreateVideo sampleScenes = true
    ∧ (handleCreateVideoRun sampleScenes false true).isExporting = true
    ∧ (handleCreateVideoRun sampleScenes false true).errorMessageShown = false
    ∧ (handleCreateVideoRun sampleScenes false true).exportedVideoUrl = none := by
  decide

/-- Claim C8: converting an overlay rectangle from percentages to pixels
against any container of positive size and converting the result back to
percentages reproduces the original percentage values exactly; the same
conversion is what drawFrame applies at the 1280x720 export frame, so one
overlay configuration is valid at both resolutions. -/
theorem c8_overlay_round_trip (o : SceneOverlay) (W H : ℚ) (hW : 0 < W) (hH : 0 < H) :
    commitOverlayRect o (overlayStartRect o W H) W H = o := by
  have hW' : W ≠ 0 := ne_of_gt hW
  have hH' : H ≠ 0 := ne_of_gt hH
  cases o with
  | mk hf url ty vol x y w hgt =>
      simp only [overlayStartRect, commitOverlayRect, SceneOverlay.mk.injEq, true_and]
      refine ⟨?_, ?_, ?_, ?_⟩ <;> (field_simp; ring)

theorem c8_overlay_round_trip_witness :
    ((0:ℚ) < 640) ∧ ((0:ℚ) < 360)
    ∧ commitOverlayRect sampleOverlay (overlayStartRect sampleOverlay 640 360) 640 360
        = sampleOverlay :=
  ⟨by decide, by decide,
   c8_overlay_round_trip sampleOverlay 640 360 (by decide) (by decide)⟩

/-- Claim C7 amended: for a scene whose trimmed background-music window is
positive and strictly shorter than the scene's duration, (a) the preview
synchronizer re-seeks the track to the trim start and keeps it playing every
time its position reaches the trim end, for as long as the scene is active;
(b) the part_002 export variant starts the scene's music source at the
scene's absolute start, reading from the trim start, for the scene duration,
with looping enabled and loop boundaries equal to the trim window; while
(c) the part_001 export variant issues the same start call with looping
enabled but leaves the loop boundaries at the source defaults (0, 0 — the
whole buffer), not the trim window. -/
theorem c7_music_loop_amended (scene : Scene) (sceneTimings : List SceneTiming)
    (timing : SceneTiming)
    (hfile : scene.backgroundMusicFile = true)
    (hurl : strTruthy scene.backgroundMusicUrl = true)
    (hfind : sceneTimings.find? (fun t => t.id == scene.id) = some timing)
    (htrim : 0 < bgTrimEndOf scene - bgTrimStartOf scene)
    (hshort : bgTrimEndOf scene - bgTrimStartOf scene < timing.duration) :
    (∀ (t : ℚ) (p : Bool), bgTrimEndOf scene ≤ t →
        bgMusicTimeUpdate scene true { currentTime := t, paused := p }
          = { currentTime := bgTrimStartOf scene, paused := false })
    ∧ musicSourceConfigPart2 scene sceneTimings
        = some { loop := true
                 loopStart := bgTrimStartOf scene
                 loopEnd := bgTrimEndOf scene
                 gain := scene.backgroundMusicVolume.getD (1/5)
                 startWhen := timing.startTime
                 startOffset := bgTrimStartOf scene
                 startDuration := timing.duration }
    ∧ musicSourceConfigPart1 scene sceneTimings
        = some { loop := true
                 loopStart := 0
                 loopEnd := 0
                 gain := scene.backgroundMusicVolume.getD (1/5)
                 startWhen := timing.startTime
                 startOffset := bgTrimStartOf scene
                 startDuration := timing.duration } := by
  have hdur0 : 0 < timing.duration := lt_trans htrim hshort
  have hnle : ¬(timing.duration ≤ 0) := not_le.mpr hdur0
  refine ⟨?_, ?_, ?_⟩
  · intro t p ht
    have hlt : bgTrimStartOf scene < bgTrimEndOf scene := by linarith
    simp [bgMusicTimeUpdate, hurl, hlt, ht]
  · simp [musicSourceConfigPart2, hfind, hfile, hdur0, htrim, hshort]
  · simp [musicSourceConfigPart1, hfind, hfile, hnle, htrim, hshort]

theorem c7_music_loop_amended_witness :
    (c7Scene.backgroundMusicFile = true)
    ∧ (strTruthy c7Scene.backgroundMusicUrl = true)
    ∧ (c7Timings.find? (fun t => t.id == c7Scene.id)
        = some { id := "sceneM", startTime := 5, duration := 10 })
    ∧ (0 < bgTrimEndOf c7Scene - bgTrimStartOf c7Scene)
    ∧ (bgTrimEndOf c7Scene - bgTrimStartOf c7Scene
        < ({ id := "sceneM", startTime := 5, duration := 10 } : SceneTiming).duration)
    ∧ ((∀ (t : ℚ) (p : Bool), bgTrimEndOf c7Scene ≤ t →
          bgMusicTimeUpdate c7Scene true { currentTime := t, paused := p }
            = { currentTime := bgTrimStartOf c7Scene, paused := false })
       ∧ musicSourceConfigPart2 c7Scene c7Timings
          = some { loop := true
                   loopStart := bgTrimStartOf c7Scene
                   loopEnd := bgTrimEndOf c7Scene
                   gain := c7Scene.backgroundMusicVolume.getD (1/5)
                   startWhen := (5:ℚ)
                   startOffset := bgTrimStartOf c7Scene
                   startDuration := (10:ℚ) }
       ∧ musicSourceConfigPart1 c7Scene c7Timings
          = some { loop := true
                   loopStart := 0
                   loopEnd := 0
                   gain := c7Scene.backgroundMusicVolume.getD (1/5)
                   startWhen := (5:ℚ)
                   startOffset := bgTrimStartOf c7Scene
                   startDuration := (10:ℚ) }) :=
  ⟨rfl, by decide, by decide,
   by norm_num [bgTrimEndOf, bgTrimStartOf, c7Scene],
   by norm_num [bgTrimEndOf, bgTrimStartOf, c7Scene],
   c7_music_loop_amended c7Scene c7Timings { id := "sceneM", startTime := 5, duration := 10 }
     rfl (by decide) (by decide)
     (by norm_num [bgTrimEndOf, bgTrimStartOf, c7Scene])
     (by norm_num [bgTrimEndOf, bgTrimStartOf, c7Scene])⟩

/-- Claim C7 counterexample: for a scene whose trimmed music window [1, 3] is
positive and shorter than its 10s scene duration, the part_001 export path
enables looping but leaves loopStart at 0 instead of the trim start 1, so the
claimed "loop boundaries equal to the trim window" is false for that export. -/
theorem c7_loop_boundaries_counterexample :
    bgTrimStartOf c7Scene = 1
    ∧ (musicSourceConfigPart1 c7Scene c7Timings).map MusicSourceConfig.loop = some true
    ∧ (musicSourceConfigPart1 c7Scene c7Timings).map MusicSourceConfig.loopStart = some 0
    ∧ (musicSourceConfigPart1 c7Scene c7Timings).map MusicSourceConfig.loopStart
        ≠ some (bgTrimStartOf c7Scene) := by
  norm_num [musicSourceConfigPart1, c7Scene, c7Timings, bgTrimStartOf, bgTrimEndOf,
    List.find?]

theorem runStep_eq_map (st : List Scene) (a : Scene) (gen : String → Option String) :
    (if shouldGenerateScene a then runImageGenerationStep st a gen else st)
      = st.map (genUpdateScene a gen) := by
  by_cases hs : shouldGenerateScene a = true
  · rw [if_pos hs]
    unfold runImageGenerationStep updateImageStatus
    cases hgen : gen a.id with
    | some url =>
        simp only [hgen]
        rw [List.map_map]
        apply List.map_congr_left
        intro sc _
        simp [genUpdateScene, hs, hgen, Function.comp]
    | none =>
        simp only [hgen]
        rw [List.map_map]
        apply List.map_congr_left
        intro sc _
        simp [genUpdateScene, hs, hgen, Function.comp]
  · have hs' : shouldGenerateScene a = false := by simpa using hs
    rw [if_neg (by simp [hs'])]
    have hid : ∀ sc ∈ st, genUpdateScene a gen sc = id sc := by
      intro sc _
      simp [genUpdateScene, hs']
    rw [List.map_congr_left hid, List.map_id]

theorem batch_fold_map (gen : String → Option String) (l : List Scene) (st : List Scene) :
    l.foldl (fun st scene =>
        if shouldGenerateScene scene then runImageGenerationStep st scene gen else st) st
      = st.map (fun sc => l.foldl (fun sc scene => genUpdateScene scene gen sc) sc) := by
  induction l generalizing st with
  | nil =>
      simp only [List.foldl_nil]
      rw [show (fun sc : Scene => sc) = id from rfl, List.map_id]
  | cons a l ih =>
      simp only [List.foldl_cons]
      rw [runStep_eq_map, ih, List.map_map]
      rfl

theorem updateOneScene_id (sid iid : String) (ns : ImageStatus) (nu : Option String)
    (s : Scene) : (updateOneScene sid iid ns nu s).id = s.id := by
  unfold updateOneScene
  split <;> rfl

theorem genUpdateScene_id (a : Scene) (gen : String → Option String) (sc : Scene) :
    (genUpdateScene a gen sc).id = sc.id := by
  unfold genUpdateScene
  split
  · cases hgen : gen a.id <;> simp [hgen, updateOneScene_id]
  · rfl

theorem genUpdateScene_of_ne (a : Scene) (gen : String → Option String) (sc : Scene)
    (h : sc.id ≠ a.id) : genUpdateScene a gen sc = sc := by
  have hbeq : (sc.id == a.id) = false := by simpa using h
  cases hgen : gen a.id <;> simp [genUpdateScene, updateOneScene, hbeq, hgen]

theorem foldl_genUpdate_of_ne (gen : String → Option String) (l : List Scene) (sc : Scene)
    (h : ∀ a ∈ l, sc.id ≠ a.id) :
    l.foldl (fun sc scene => genUpdateScene scene gen sc) sc = sc := by
  induction l generalizing sc with
  | nil => rfl
  | cons a l ih =>
      simp only [List.foldl_cons]
      rw [genUpdateScene_of_ne a gen sc (h a (List.mem_cons_self a l))]
      exact ih sc (fun b hb => h b (List.mem_cons_of_mem _ hb))

theorem placeholderize_id (s : Scene) :
    (if shouldGenerateScene s then { s with images := [mkPlaceholder s.id] } else s).id
      = s.id := by
  split <;> rfl

theorem genUpdateScene_self (gen : String → Option String) (s : Scene) :
    genUpdateScene s gen
        (if shouldGenerateScene s then { s with images := [mkPlaceholder s.id] } else s)
      = c9Expected s gen := by
  by_cases hs : shouldGenerateScene s = true
  · simp only [hs, if_true]
    cases hgen : gen s.id with
    | some url =>
        simp [genUpdateScene, c9Expected, hs, hgen, updateOneScene, updateImage,
          mkPlaceholder]
    | none =>
        simp [genUpdateScene, c9Expected, hs, hgen, updateOneScene, updateImage,
          mkPlaceholder]
  · have hs' : shouldGenerateScene s = false := by simpa using hs
    simp [hs', genUpdateScene, c9Expected]

/-- Claim C9: in a batch generation run over scenes with distinct ids, the
final scene list is exactly the input list with each to-be-generated scene
replaced according to its own generation outcome — status done, selected and
holding the generated url on success; status error (still selected, empty
url) on failure — independently of every other scene's outcome, while scenes
that were not due for generation are untouched; the run always produces a
complete final list (same length and order). -/
theorem c9_batch_generate (scenes : List Scene) (gen : String → Option String)
    (hids : (scenes.map Scene.id).Nodup) :
    handleBatchGenerate scenes gen = scenes.map (fun s => c9Expected s gen) := by
  unfold handleBatchGenerate
  rw [batch_fold_map]
  unfold scenesWithPlaceholders
  rw [List.map_map]
  apply List.map_congr_left
  intro x hx
  obtain ⟨l1, l2, rfl⟩ := List.append_of_mem hx
  have hmid := List.nodup_cons.mp (List.nodup_middle.mp (by
    rw [List.map_append, List.map_cons] at hids
    exact hids))
  have h1 : ∀ a ∈ l1, x.id ≠ a.id := by
    intro a ha hcon
    exact hmid.1 (List.mem_append.mpr (Or.inl (hcon ▸ List.mem_map_of_mem Scene.id ha)))
  have h2 : ∀ a ∈ l2, x.id ≠ a.id := by
    intro a ha hcon
    exact hmid.1 (List.mem_append.mpr (Or.inr (hcon ▸ List.mem_map_of_mem Scene.id ha)))
  simp only [Function.comp_apply]
  rw [List.foldl_append, List.foldl_cons]
  rw [foldl_genUpdate_of_ne gen l1 _ (by
    intro a ha
    rw [placeholderize_id]
    exact h1 a ha)]
  rw [foldl_genUpdate_of_ne gen l2 _ (by
    intro a ha
    rw [genUpdateScene_id, placeholderize_id]
    exact h2 a ha)]
  exact genUpdateScene_self gen x

theorem c9_batch_generate_witness :
    (([c9SceneA, c9SceneB].map Scene.id).Nodup)
    ∧ handleBatchGenerate [c9SceneA, c9SceneB] c9Gen
        = [c9SceneA, c9SceneB].map (fun s => c9Expected s c9Gen) :=
  ⟨by decide, c9_batch_generate [c9SceneA, c9SceneB] c9Gen (by decide)⟩

theorem adjustedScene_mapped (s : Scene) (D : ℚ) (hD : MIN_DURATION_PER_IMAGE ≤ D) :
    AdjustedScene s { s with images := s.images.map (fun img =>
      if autoAdjustEligible img then { img with duration := D } else img) } := by
  constructor
  · rfl
  · show List.Forall₂ _ s.images (s.images.map (fun img =>
      if autoAdjustEligible img then { img with duration := D } else img))
    rw [List.forall₂_map_right_iff, List.forall₂_same]
    intro img _
    by_cases he : autoAdjustEligible img = true
    · simp only [he, if_true]
      exact ⟨trivial, hD⟩
    · have he' : autoAdjustEligible img = false := by simpa using he
      simp [he']

theorem adjustedScene_unchanged (s : Scene)
    (h : ∀ img ∈ s.images, autoAdjustEligible img = false) : AdjustedScene s s := by
  constructor
  · rfl
  · rw [List.forall₂_same]
    intro img hm
    simp [h img hm]

/-- Claim C10: whenever the narration file is present with a known duration,
the trimmed narration window is positive and at least one done-and-selected
image exists, handleAutoAdjustDurations assigns every done-and-selected image
a duration of at least MIN_DURATION_PER_IMAGE (0.2s) while leaving all its
other fields intact, leaves every other image entirely unchanged, and
preserves the number and order of scenes (and their non-image fields) and of
images within each scene. -/
theorem c10_auto_adjust (scenes : List Scene) (cfg : VideoConfig) (audioDuration : ℚ)
    (hfile : cfg.hasAudioFile = true)
    (hdur : audioDuration ≠ 0)
    (htrim : 0 < cfg.trimEnd.getD audioDuration - cfg.trimStart)
    (helig : ∃ s ∈ scenes, ∃ img ∈ s.images, autoAdjustEligible img = true) :
    List.Forall₂ AdjustedScene scenes (handleAutoAdjustDurations scenes cfg audioDuration) := by
  have hflatlen : ((scenes.map (fun s => s.images.filter
      (fun img => img.status == ImageStatus.done && img.isSelected))).flatten).length ≠ 0 := by
    obtain ⟨s, hs, img, himg, he⟩ := helig
    have hpred : (img.status == ImageStatus.done && img.isSelected) = true := by
      have hsw : (img.isSelected && img.status == ImageStatus.done) = true := he
      rw [Bool.and_comm] at hsw
      exact hsw
    have hmem : img ∈ (scenes.map (fun s => s.images.filter
        (fun img => img.status == ImageStatus.done && img.isSelected))).flatten := by
      rw [List.mem_flatten]
      exact ⟨_, List.mem_map_of_mem _ hs, List.mem_filter.mpr ⟨himg, hpred⟩⟩
    intro hlen
    rw [List.length_eq_zero] at hlen
    rw [hlen] at hmem
    cases hmem
  simp only [handleAutoAdjustDurations]
  split
  · next hcond => exact absurd hcond (by simp [hfile, hdur])
  · next hcond =>
      split
      · next hcond2 => exact absurd hcond2 (not_le.mpr htrim)
      · next hcond2 =>
          split
          · next hcond3 => exact absurd hcond3 (by simpa using hflatlen)
          · next hcond3 =>
              split
              · next hb =>
                  rw [List.forall₂_map_right_iff, List.forall₂_same]
                  intro s _
                  exact adjustedScene_mapped s _ (le_max_left _ _)
              · next hb =>
                  rw [List.forall₂_map_right_iff, List.forall₂_same]
                  intro s _
                  split
                  · next hcs =>
                      apply adjustedScene_unchanged
                      intro img him
                      have hnil : s.images.filter autoAdjustEligible = [] :=
                        List.length_eq_zero.mp (by simpa using hcs)
                      have hni := List.filter_eq_nil_iff.mp hnil img him
                      simpa using hni
                  · next hcs =>
                      exact adjustedScene_mapped s _ (le_max_left _ _)

theorem c10_auto_adjust_witness :
    (c10Config.hasAudioFile = true)
    ∧ ((30:ℚ) ≠ 0)
    ∧ (0 < c10Config.trimEnd.getD 30 - c10Config.trimStart)
    ∧ (∃ s ∈ c10Scenes, ∃ img ∈ s.images, autoAdjustEligible img = true)
    ∧ List.Forall₂ AdjustedScene c10Scenes
        (handleAutoAdjustDurations c10Scenes c10Config 30) :=
  ⟨rfl, by decide, by norm_num [c10Config], by decide,
   c10_auto_adjust c10Scenes c10Config 30 rfl (by decide)
     (by norm_num [c10Config]) (by decide)⟩
